import Mathlib

/-!
# paragliding: the track registry handlers of `main.go`

A shallow embedding of the HTTP handlers of `main.go` (`registerTrack`,
`getIDs`, `getTrackMeta`, `getTrackMetaField`, `uptime`, `absolute`) and
theorems about them.

Conventions of the embedding:

* The package-level variables `lastTrack`, `tracks`, `idlist` form the record
  `Registry`; a handler takes the registry and returns a `Result` holding the
  registry it leaves, the response it wrote, the calls it made and how it
  ended (returned, `log.Fatal`, run-time panic).
* Go `int` is modelled by `Int`. `strconv.Atoi` keeps its 64-bit range check;
  the counters stay far below `2^63`, since every registration costs memory.
* `igc.ParseLocation` (network and file access), the JSON encoding of a
  `TrackInfo` and `time.Time.String` are library calls: they are fields of
  `Env`. `insert` is called by `registerTrack` but defined outside `main.go`:
  it is a field of `Env` too, taken to return, and `insert` below is the model
  used for it where a theorem depends on what it does.
-/

namespace Paragliding

/-! ## Data model -/

/-- Go `time.Time`, an instant, as seconds since the Unix epoch. -/
structure Time where
  unix : Int
  deriving DecidableEq, Repr

/-- Struct `Metadata`: info about the API. -/
structure Metadata where
  Uptime : String
  Desc : String
  Version : String
  deriving DecidableEq, Repr

/-- Struct `Track`: basic info about a track. -/
structure Track where
  ID : Int
  URL : String
  deriving DecidableEq, Repr

/-- Struct `TrackInfo`: detailed info about a track. -/
structure TrackInfo where
  FDate : Time
  Pilot : String
  Glider : String
  GliderID : String
  TrackLength : Int
  deriving DecidableEq, Repr

/-- Struct `IDList`: one stored id. -/
structure IDList where
  ID : Int
  deriving DecidableEq, Repr

/-- The fields of `igc.Track` that `main.go` reads. -/
structure IgcTrack where
  Date : Time
  Pilot : String
  GliderType : String
  GliderID : String
  deriving DecidableEq, Repr

/-- The package-level variables `idlist`, `tracks`, `lastTrack`. -/
structure Registry where
  idlist : List IDList
  tracks : List Track
  lastTrack : Int
  deriving DecidableEq, Repr

/-- The values the variables are declared with: `var idlist []IDList`,
`var tracks []Track`, `var lastTrack = 0`. -/
def Registry.initial : Registry :=
  { idlist := [], tracks := [], lastTrack := 0 }

/-! ## Errors, calls and outcomes -/

/-- Error values that reach `log.Fatal` in `main.go`. -/
inductive GoError where
  | badNumber (s : String)
  | outOfRange (s : String)
  | parseFailed (msg : String)
  deriving DecidableEq, Repr

/-- Calls a handler makes that the claims speak about. -/
inductive Event where
  | logged (msg : String)
  | parsed (url : String)
  | inserted (t : TrackInfo)
  | indexed (i : Int)
  deriving DecidableEq, Repr

/-- How a handler ends: it returns, it calls `log.Fatal` (which ends the
process with `os.Exit(1)`), or indexing `tracks` panics. -/
inductive Exit where
  | returned
  | fatal (e : GoError)
  | indexPanic (i : Int)
  deriving DecidableEq, Repr

/-! ## `http.ResponseWriter` -/

/-- State of an `http.ResponseWriter`: the header map, the status code sent
(once `WriteHeader` ran), the headers sent with it, and the body written. -/
structure ResponseWriter where
  header : List (String × String)
  status : Option Nat
  sent : List (String × String)
  body : String
  deriving DecidableEq, Repr

namespace ResponseWriter

/-- The writer a handler starts with. -/
def fresh : ResponseWriter :=
  { header := [], status := none, sent := [], body := "" }

/-- Call `w.Header().Set(k, v)`. -/
def Set (w : ResponseWriter) (k v : String) : ResponseWriter :=
  { w with header := (k, v) :: w.header.filter (fun p => p.1 ≠ k) }

/-- Call `w.WriteHeader(code)`: the first call sends the status line and the
headers; a later call is ignored. -/
def WriteHeader (w : ResponseWriter) (code : Nat) : ResponseWriter :=
  match w.status with
  | some _ => w
  | none => { w with status := some code, sent := w.header }

/-- Call `w.Write(b)`: sends status 200 first when no status was sent yet. -/
def Write (w : ResponseWriter) (b : String) : ResponseWriter :=
  let w1 := w.WriteHeader 200
  { w1 with body := w1.body ++ b }

/-- Call `fmt.Fprintln(w, text)` for an operand already rendered as text. -/
def Fprintln (w : ResponseWriter) (text : String) : ResponseWriter :=
  w.Write (text ++ "\n")

/-- Call `http.Error(w, msg, code)`. -/
def Error (w : ResponseWriter) (msg : String) (code : Nat) : ResponseWriter :=
  (((w.Set "Content-Type" "text/plain; charset=utf-8").Set
    "X-Content-Type-Options" "nosniff").WriteHeader code).Fprintln msg

/-- Status code the client receives: the server sends 200 when the handler
returns without having sent a status. -/
def statusCode (w : ResponseWriter) : Nat :=
  w.status.getD 200

/-- Value of a header among those sent to the client. -/
def sentHeader (w : ResponseWriter) (k : String) : Option String :=
  (w.sent.find? (fun p => p.1 = k)).map Prod.snd

end ResponseWriter

/-! ## Library functions on strings -/

/-- Second result of `path.Split`: what follows the final slash. -/
def pathSplitFile : List Char → List Char → List Char
  | [], acc => acc.reverse
  | c :: cs, acc => if c = '/' then pathSplitFile cs [] else pathSplitFile cs (c :: acc)

/-- Call `path.Split(p)`, second result. -/
def pathFile (p : String) : String :=
  String.mk (pathSplitFile p.data [])

/-- Worker of `strings.Split(s, "/")`. -/
def splitSlash : List Char → List Char → List String
  | [], acc => [String.mk acc.reverse]
  | c :: cs, acc =>
    if c = '/' then String.mk acc.reverse :: splitSlash cs [] else splitSlash cs (c :: acc)

/-- Call `strings.Split(s, "/")`. -/
def stringsSplit (s : String) : List String :=
  splitSlash s.data []

/-- Value of a run of decimal digits, `none` when a character is no digit. -/
def digitsValue : List Char → Nat → Option Nat
  | [], n => some n
  | c :: cs, n =>
    if '0' ≤ c ∧ c ≤ '9' then digitsValue cs (n * 10 + (c.toNat - '0'.toNat)) else none

/-- Call `strconv.Atoi(s)` on a 64-bit platform: an optional sign, then one
or more decimal digits, and the value must fit `int`. -/
def Atoi (s : String) : Except GoError Int :=
  let (neg, ds) :=
    match s.data with
    | '-' :: r => (true, r)
    | '+' :: r => (false, r)
    | r => (false, r)
  match ds with
  | [] => .error (.badNumber s)
  | _ :: _ =>
    match digitsValue ds 0 with
    | none => .error (.badNumber s)
    | some n =>
      let v : Int := if neg then -(n : Int) else (n : Int)
      if -(2 ^ 63 : Int) ≤ v ∧ v < 2 ^ 63 then .ok v else .error (.outOfRange s)

/-- Element `xs[i]` of a slice: `none` stands for the index-out-of-range
panic. -/
def sliceIndex {α : Type} (xs : List α) (i : Int) : Option α :=
  if i < 0 then none else xs[i.toNat]?

/-! ## Environment and handler results -/

/-- What the handlers call outside `main.go`. `ParseLocation` returns the
track value together with the error (`none` for `nil`). `encodeTrackInfo`
gives the bytes `json.NewEncoder(w).Encode(info)` writes. `timeString` is
`time.Time.String`. `insert` is the function of that name. -/
structure Env where
  ParseLocation : String → IgcTrack × Option String
  insert : Registry → TrackInfo → Registry
  encodeTrackInfo : TrackInfo → String
  timeString : Time → String

/-- What a handler leaves behind. -/
structure Result where
  reg : Registry
  w : ResponseWriter
  trace : List Event
  exit : Exit
  deriving DecidableEq, Repr

/-- Modelled from the spec: `insert`, which `registerTrack` calls and which is
defined outside `main.go`. The spec has a successful registration assign the next
sequential integer id and store the track, the id list being the ordered
sequence of registered ids. The url is not among the arguments of the call,
so the stored `Track` carries the id only. -/
def insert (s : Registry) (_t : TrackInfo) : Registry :=
  let id := s.lastTrack + 1
  { idlist := s.idlist ++ [{ ID := id }]
    tracks := s.tracks ++ [{ ID := id, URL := "" }]
    lastTrack := id }

/-! ## The handlers -/

/-- The text `fmt.Sprintf` builds in `registerTrack` from the raw string
literal `"{"id":%d}"`, whose first and last characters are double quotes. -/
def jsonConverter (trackId : Int) : String :=
  "\"\x7b\"id\":" ++ toString trackId ++ "\x7d\""

/-- The `TrackInfo` the handlers build from a parsed track, the track length
being the constant 9. -/
def trackInfoOf (t : IgcTrack) : TrackInfo :=
  { FDate := t.Date, Pilot := t.Pilot, Glider := t.GliderType, GliderID := t.GliderID,
    TrackLength := 9 }

/-- Handler `registerTrack`. `query` is `r.URL.Query()["url"]`: `none` when
the key is absent, otherwise the first value `url[0]`. -/
def registerTrack (env : Env) (s : Registry) (query : Option String) : Result :=
  let missing : Result :=
    { reg := s, w := ResponseWriter.fresh,
      trace := [Event.logged "URL parameter is missing"], exit := Exit.returned }
  match query with
  | none => missing
  | some url0 =>
    if url0.length < 1 then missing
    else
      let parsedTrack := env.ParseLocation url0
      let igcData := parsedTrack.1
      let w0 :=
        match parsedTrack.2 with
        | some _ => ResponseWriter.fresh.Error "Problem parsing URL" 400
        | none => ResponseWriter.fresh
      let trackId := s.lastTrack + 1
      let trackData := trackInfoOf igcData
      let s1 := env.insert s trackData
      let output := jsonConverter trackId
      let w1 := ((w0.Set "Content-Type" "application/json").WriteHeader 200).Write output
      { reg := s1, w := w1,
        trace := [Event.parsed url0, Event.inserted trackData], exit := Exit.returned }

/-- Handler `getTrackMeta`; `url` is `r.URL.String()`. -/
def getTrackMeta (env : Env) (s : Registry) (url : String) : Result :=
  let input := pathFile url
  match Atoi input with
  | .error err =>
    { reg := s, w := ResponseWriter.fresh, trace := [], exit := Exit.fatal err }
  | .ok i =>
    if i ≤ s.lastTrack then
      match sliceIndex s.tracks (i - 1) with
      | none =>
        { reg := s, w := ResponseWriter.fresh, trace := [Event.indexed (i - 1)],
          exit := Exit.indexPanic (i - 1) }
      | some tr =>
        let parsedTrack := env.ParseLocation tr.URL
        match parsedTrack.2 with
        | some e =>
          { reg := s, w := ResponseWriter.fresh,
            trace := [Event.indexed (i - 1), Event.parsed tr.URL],
            exit := Exit.fatal (GoError.parseFailed e) }
        | none =>
          let info := trackInfoOf parsedTrack.1
          { reg := s
            w := ((ResponseWriter.fresh.Set "Content-Type" "application/json").WriteHeader
              200).Write (env.encodeTrackInfo info)
            trace := [Event.indexed (i - 1), Event.parsed tr.URL], exit := Exit.returned }
    else
      { reg := s, w := ResponseWriter.fresh.WriteHeader 404, trace := [],
        exit := Exit.returned }

/-- The `switch f` of `getTrackMetaField`. -/
def writeField (env : Env) (w : ResponseWriter) (info : TrackInfo) (f : String) :
    ResponseWriter :=
  if f = "pilot" then w.Fprintln info.Pilot
  else if f = "glider" then w.Fprintln info.Glider
  else if f = "glider_id" then w.Fprintln info.GliderID
  else if f = "track_length" then w.Fprintln (toString info.TrackLength)
  else if f = "H_date" then w.Fprintln (env.timeString info.FDate)
  else w.WriteHeader 404

/-- Handler `getTrackMetaField`; `url` is `r.URL.String()`. `none` stands for
the index-out-of-range panic of `temp[5]` or `temp[4]`. -/
def getTrackMetaField (env : Env) (s : Registry) (url : String) : Option Result :=
  let temp := stringsSplit url
  match temp[5]?, temp[4]? with
  | some f, some t =>
    some (match Atoi t with
    | .error err =>
      { reg := s, w := ResponseWriter.fresh, trace := [], exit := Exit.fatal err }
    | .ok i =>
      if i ≤ s.lastTrack then
        match sliceIndex s.tracks (i - 1) with
        | none =>
          { reg := s, w := ResponseWriter.fresh, trace := [Event.indexed (i - 1)],
            exit := Exit.indexPanic (i - 1) }
        | some tr =>
          let parsedTrack := env.ParseLocation tr.URL
          match parsedTrack.2 with
          | some e =>
            { reg := s, w := ResponseWriter.fresh,
              trace := [Event.indexed (i - 1), Event.parsed tr.URL],
              exit := Exit.fatal (GoError.parseFailed e) }
          | none =>
            let info := trackInfoOf parsedTrack.1
            { reg := s, w := writeField env ResponseWriter.fresh info f,
              trace := [Event.indexed (i - 1), Event.parsed tr.URL], exit := Exit.returned }
      else
        { reg := s, w := ResponseWriter.fresh.WriteHeader 404, trace := [],
          exit := Exit.returned })
  | _, _ => none

/-- Requests handled one after another by `registerTrack`, each on the
registry the one before left; the results in order. -/
def registerAll (env : Env) : Registry → List (Option String) → List Result
  | _, [] => []
  | s, q :: qs =>
    let r := registerTrack env s q
    r :: registerAll env r.reg qs

/-- A parser for examples: two urls serve a track, every other fails. -/
def sampleParse (url : String) : IgcTrack × Option String :=
  if url = "https://example.org/flight1.igc" then
    ({ Date := { unix := 1518912000 }, Pilot := "Ann", GliderType := "Zeno",
       GliderID := "D-1234" }, none)
  else if url = "https://example.org/flight2.igc" then
    ({ Date := { unix := 1518998400 }, Pilot := "Bob", GliderType := "Rush",
       GliderID := "D-5678" }, none)
  else
    ({ Date := { unix := 0 }, Pilot := "", GliderType := "", GliderID := "" },
     some "unreachable")

/-- An environment for examples. -/
def sampleEnv : Env :=
  { ParseLocation := sampleParse
    insert := insert
    encodeTrackInfo := fun t => t.Pilot ++ "\n"
    timeString := fun t => toString t.unix }

/-! ## Uptime -/

/-- Year, month and day of the day `z` days after 1970-01-01 in the proleptic
Gregorian calendar, which is what `time.Time.Date` reports. Days are grouped
in 400-year eras starting on 1 March; `/` on `Int` rounds down here, all
divisors being positive. -/
def civilFromDays (z : Int) : Int × Int × Int :=
  let z1 := z + 719468
  let era := z1 / 146097
  let doe := z1 - era * 146097
  let yoe := (doe - doe / 1460 + doe / 36524 - doe / 146096) / 365
  let y := yoe + era * 400
  let doy := doe - (365 * yoe + yoe / 4 - yoe / 100)
  let mp := (5 * doy + 2) / 153
  let d := doy - (153 * mp + 2) / 5 + 1
  let m := if mp < 10 then mp + 3 else mp - 9
  (if m ≤ 2 then y + 1 else y, m, d)

/-- Result of `u.Date()` for `u := time.Unix(sec, 0)`, in a zone `zone`
seconds east of UTC. -/
def Date (zone sec : Int) : Int × Int × Int :=
  civilFromDays ((sec + zone) / 86400)

/-- Result of `u.Clock()` for `u := time.Unix(sec, 0)`, in a zone `zone`
seconds east of UTC. -/
def Clock (zone sec : Int) : Int × Int × Int :=
  let wall := sec + zone
  (wall % 86400 / 3600, wall % 3600 / 60, wall % 60)

/-- Function `absolute`. -/
def absolute (i : Int) : Int :=
  if i < 0 then -i else i

/-- Function `uptime`. `now` is `time.Now().Unix()`, `timeStart` is
`timeStart.Unix()`, and `zone` is the offset of `time.Local` in seconds east
of UTC (0 when the process runs in UTC). -/
def uptime (zone now timeStart : Int) : String :=
  let elapsed := now - timeStart
  let date := Date zone elapsed
  let clock := Clock zone elapsed
  let years := date.1
  let months := date.2.1 - 1
  let days := date.2.2 - 1
  "P" ++ toString (absolute (years - 1970)) ++ "Y" ++ toString months ++ "M" ++
    toString days ++ "DT" ++ toString clock.1 ++ "H" ++ toString clock.2.1 ++ "M" ++
    toString clock.2.2 ++ "S"

/-- Handler `getMetadata`: the `Metadata` value it encodes. -/
def getMetadata (zone now timeStart : Int) : Metadata :=
  { Uptime := uptime zone now timeStart, Desc := "Service for Paragliding tracks",
    Version := "v1" }

/-! ## Values used to state the theorems -/

/-- The response `registerTrack` writes for a url that parses. -/
def acceptedResponse (trackId : Int) : ResponseWriter :=
  { header := [("Content-Type", "application/json")], status := some 200,
    sent := [("Content-Type", "application/json")], body := jsonConverter trackId }

/-- The response `registerTrack` leaves for a non-empty url on which the
parser fails: status 400 and the headers of `http.Error` were sent, and the
id text follows the error text in the body. -/
def rejectedResponse (trackId : Int) : ResponseWriter :=
  { header := [("Content-Type", "application/json"), ("X-Content-Type-Options", "nosniff")]
    status := some 400
    sent := [("X-Content-Type-Options", "nosniff"),
      ("Content-Type", "text/plain; charset=utf-8")]
    body := "Problem parsing URL\n" ++ jsonConverter trackId }

/-- What `registerTrack` leaves when the url parameter is missing or empty:
one log line, nothing written to the response, the registry as it was. -/
def missingResult (s : Registry) : Result :=
  { reg := s, w := ResponseWriter.fresh,
    trace := [Event.logged "URL parameter is missing"], exit := Exit.returned }

/-- The result of a read handler that answers 404 and nothing else. -/
def notFoundResult (s : Registry) : Result :=
  { reg := s
    w := { header := [], status := some 404, sent := [], body := "" }
    trace := [], exit := Exit.returned }

/-- The result of a read handler whose `tracks[i]` panics. -/
def indexPanicResult (s : Registry) (i : Int) : Result :=
  { reg := s, w := ResponseWriter.fresh, trace := [Event.indexed i],
    exit := Exit.indexPanic i }

/-- The result of a read handler that calls `log.Fatal` on the parser error
`e` for the stored track `tr = tracks[i]`. -/
def parseFatalResult (s : Registry) (i : Int) (tr : Track) (e : String) : Result :=
  { reg := s, w := ResponseWriter.fresh,
    trace := [Event.indexed i, Event.parsed tr.URL],
    exit := Exit.fatal (GoError.parseFailed e) }

/-- A registry holding one track whose source no longer parses. -/
def staleRegistry : Registry :=
  { idlist := [{ ID := 1 }]
    tracks := [{ ID := 1, URL := "https://example.org/gone.igc" }]
    lastTrack := 1 }

/-- A registry holding one track whose source parses. -/
def liveRegistry : Registry :=
  { idlist := [{ ID := 1 }]
    tracks := [{ ID := 1, URL := "https://example.org/flight1.igc" }]
    lastTrack := 1 }

/-- Two urls the sample parser accepts. -/
def twoUrls : List String :=
  ["https://example.org/flight1.igc", "https://example.org/flight2.igc"]

/-- Whether the first character of a text that is not JSON white space is an
opening brace, as it is in every JSON object. -/
def opensJSONObject (body : String) : Bool :=
  match body.data.dropWhile (fun c => c = ' ' ∨ c = '\t' ∨ c = '\n' ∨ c = '\r') with
  | c :: _ => c = '\x7b'
  | [] => false

/-- The field names `getTrackMetaField` knows. -/
def knownFields : List String :=
  ["pilot", "glider", "glider_id", "track_length", "H_date"]

/-! ## Theorems -/

theorem civilFromDays_january_1970 (z : Int) (h0 : 0 ≤ z) (h1 : z < 31) :
    civilFromDays z = (1970, 1, z + 1) := by
  unfold civilFromDays
  have e1 : (z + 719468) / 146097 = 4 := by omega
  simp only [e1]
  have e2 : (z + 719468 - 4 * 146097 -
      (z + 719468 - 4 * 146097) / 1460 + (z + 719468 - 4 * 146097) / 36524 -
      (z + 719468 - 4 * 146097) / 146096) / 365 = 369 := by omega
  simp only [e2]
  have e3 : (5 * (z + 719468 - 4 * 146097 - (365 * 369 + 369 / 4 - 369 / 100)) + 2) / 153
      = 10 := by omega
  simp only [e3]
  simp
  omega

/-! ### `registerTrack` -/

theorem length_lt_one_iff (u : String) : u.length < 1 ↔ u = "" := by
  cases u with
  | mk d =>
    cases d with
    | nil => simp [String.length]
    | cons c cs =>
      simp [String.length]
      intro h
      exact absurd (congrArg String.data h) (by simp)

theorem registerTrack_parsed (env : Env) (s : Registry) (u : String) (hu : u ≠ "")
    (hp : (env.ParseLocation u).2 = none) :
    registerTrack env s (some u) =
      { reg := env.insert s (trackInfoOf (env.ParseLocation u).1)
        w := acceptedResponse (s.lastTrack + 1)
        trace := [Event.parsed u, Event.inserted (trackInfoOf (env.ParseLocation u).1)]
        exit := Exit.returned } := by
  have hl : ¬ u.length < 1 := fun h => hu ((length_lt_one_iff u).1 h)
  simp [registerTrack, hl, hp, acceptedResponse, ResponseWriter.Set, ResponseWriter.WriteHeader,
    ResponseWriter.Write, ResponseWriter.fresh]

theorem registerTrack_parse_failed (env : Env) (s : Registry) (u e : String) (hu : u ≠ "")
    (hp : (env.ParseLocation u).2 = some e) :
    registerTrack env s (some u) =
      { reg := env.insert s (trackInfoOf (env.ParseLocation u).1)
        w := rejectedResponse (s.lastTrack + 1)
        trace := [Event.parsed u, Event.inserted (trackInfoOf (env.ParseLocation u).1)]
        exit := Exit.returned } := by
  have hl : ¬ u.length < 1 := fun h => hu ((length_lt_one_iff u).1 h)
  simp [registerTrack, hl, hp, rejectedResponse, ResponseWriter.Set,
    ResponseWriter.WriteHeader, ResponseWriter.Write, ResponseWriter.fresh,
    ResponseWriter.Error, ResponseWriter.Fprintln]

theorem registerTrack_missing (env : Env) (s : Registry) (q : Option String)
    (hq : q = none ∨ q = some "") : registerTrack env s q = missingResult s := by
  rcases hq with rfl | rfl
  · rfl
  · simp [registerTrack, missingResult]

/-! ### The read handlers -/

theorem getTrackMeta_above (env : Env) (s : Registry) (url : String) (i : Int)
    (hi : Atoi (pathFile url) = .ok i) (h : s.lastTrack < i) :
    getTrackMeta env s url = notFoundResult s := by
  have hn : ¬ i ≤ s.lastTrack := by omega
  simp [getTrackMeta, hi, hn, notFoundResult, ResponseWriter.WriteHeader, ResponseWriter.fresh]

theorem getTrackMeta_index_panic (env : Env) (s : Registry) (url : String) (i : Int)
    (hi : Atoi (pathFile url) = .ok i) (h : i ≤ s.lastTrack)
    (hx : sliceIndex s.tracks (i - 1) = none) :
    getTrackMeta env s url = indexPanicResult s (i - 1) := by
  simp [getTrackMeta, hi, h, hx, indexPanicResult]

theorem getTrackMeta_parse_failed (env : Env) (s : Registry) (url : String) (i : Int)
    (tr : Track) (e : String) (hi : Atoi (pathFile url) = .ok i) (h : i ≤ s.lastTrack)
    (hx : sliceIndex s.tracks (i - 1) = some tr) (hp : (env.ParseLocation tr.URL).2 = some e) :
    getTrackMeta env s url = parseFatalResult s (i - 1) tr e := by
  simp [getTrackMeta, hi, h, hx, hp, parseFatalResult]

theorem getTrackMeta_parsed (env : Env) (s : Registry) (url : String) (i : Int)
    (tr : Track) (hi : Atoi (pathFile url) = .ok i) (h : i ≤ s.lastTrack)
    (hx : sliceIndex s.tracks (i - 1) = some tr) (hp : (env.ParseLocation tr.URL).2 = none) :
    getTrackMeta env s url =
      { reg := s
        w := { header := [("Content-Type", "application/json")], status := some 200,
               sent := [("Content-Type", "application/json")],
               body := env.encodeTrackInfo (trackInfoOf (env.ParseLocation tr.URL).1) }
        trace := [Event.indexed (i - 1), Event.parsed tr.URL], exit := Exit.returned } := by
  simp [getTrackMeta, hi, h, hx, hp, ResponseWriter.Set, ResponseWriter.WriteHeader,
    ResponseWriter.Write, ResponseWriter.fresh]

theorem getTrackMetaField_above (env : Env) (s : Registry) (url t f : String) (i : Int)
    (h5 : (stringsSplit url)[5]? = some f) (h4 : (stringsSplit url)[4]? = some t)
    (hi : Atoi t = .ok i) (h : s.lastTrack < i) :
    getTrackMetaField env s url = some (notFoundResult s) := by
  have hn : ¬ i ≤ s.lastTrack := by omega
  simp [getTrackMetaField, h5, h4, hi, hn, notFoundResult, ResponseWriter.WriteHeader,
    ResponseWriter.fresh]

theorem getTrackMetaField_index_panic (env : Env) (s : Registry) (url t f : String) (i : Int)
    (h5 : (stringsSplit url)[5]? = some f) (h4 : (stringsSplit url)[4]? = some t)
    (hi : Atoi t = .ok i) (h : i ≤ s.lastTrack)
    (hx : sliceIndex s.tracks (i - 1) = none) :
    getTrackMetaField env s url = some (indexPanicResult s (i - 1)) := by
  simp [getTrackMetaField, h5, h4, hi, h, hx, indexPanicResult]

theorem getTrackMetaField_parse_failed (env : Env) (s : Registry) (url t f : String) (i : Int)
    (tr : Track) (e : String)
    (h5 : (stringsSplit url)[5]? = some f) (h4 : (stringsSplit url)[4]? = some t)
    (hi : Atoi t = .ok i) (h : i ≤ s.lastTrack)
    (hx : sliceIndex s.tracks (i - 1) = some tr) (hp : (env.ParseLocation tr.URL).2 = some e) :
    getTrackMetaField env s url = some (parseFatalResult s (i - 1) tr e) := by
  simp [getTrackMetaField, h5, h4, hi, h, hx, hp, parseFatalResult]

theorem getTrackMetaField_parsed (env : Env) (s : Registry) (url t f : String) (i : Int)
    (tr : Track)
    (h5 : (stringsSplit url)[5]? = some f) (h4 : (stringsSplit url)[4]? = some t)
    (hi : Atoi t = .ok i) (h : i ≤ s.lastTrack)
    (hx : sliceIndex s.tracks (i - 1) = some tr) (hp : (env.ParseLocation tr.URL).2 = none) :
    getTrackMetaField env s url =
      some { reg := s
             w := writeField env ResponseWriter.fresh
               (trackInfoOf (env.ParseLocation tr.URL).1) f
             trace := [Event.indexed (i - 1), Event.parsed tr.URL], exit := Exit.returned } := by
  simp [getTrackMetaField, h5, h4, hi, h, hx, hp]

theorem sliceIndex_neg {α : Type} (xs : List α) (i : Int) (h : i < 0) :
    sliceIndex xs i = none := by
  simp [sliceIndex, h]

theorem sliceIndex_some_nonneg {α : Type} (xs : List α) (i : Int) (x : α)
    (h : sliceIndex xs i = some x) : 0 ≤ i := by
  by_contra hn
  rw [sliceIndex_neg xs i (by omega)] at h
  exact absurd h (by simp)

/-! ### Sequences of registrations -/

theorem registerAll_bodies (env : Env)
    (hbump : ∀ s t, (env.insert s t).lastTrack = s.lastTrack + 1) (urls : List String)
    (hok : ∀ u ∈ urls, u ≠ "" ∧ (env.ParseLocation u).2 = none) :
    ∀ s : Registry, (registerAll env s (urls.map some)).map (fun r => r.w.body) =
      (List.range urls.length).map (fun (i : Nat) => jsonConverter (s.lastTrack + 1 + (i : Int))) := by
  induction urls with
  | nil => intro s; simp [registerAll]
  | cons u rest ih =>
    intro s
    have hu := hok u (List.mem_cons_self u rest)
    have hrest : ∀ v ∈ rest, v ≠ "" ∧ (env.ParseLocation v).2 = none :=
      fun v hv => hok v (List.mem_cons_of_mem u hv)
    have hr := registerTrack_parsed env s u hu.1 hu.2
    simp only [List.map_cons, registerAll, List.length_cons, List.range_succ_eq_map,
      List.map_map]
    rw [ih hrest, hr]
    simp only [acceptedResponse, hbump, Nat.cast_zero, add_zero, List.cons.injEq, true_and]
    apply List.map_congr_left
    intro i _
    simp only [Function.comp, Nat.succ_eq_add_one, Nat.cast_add, Nat.cast_one]
    congr 1
    omega

theorem insert_lastTrack (s : Registry) (t : TrackInfo) :
    (insert s t).lastTrack = s.lastTrack + 1 := rfl

/-- Without an update of `lastTrack` by `insert` every registration answers
with the same id: `registerTrack` itself never assigns the counter. -/
theorem registerAll_bodies_of_counter_kept (env : Env)
    (hkeep : ∀ s t, (env.insert s t).lastTrack = s.lastTrack) (urls : List String)
    (hok : ∀ u ∈ urls, u ≠ "" ∧ (env.ParseLocation u).2 = none) :
    ∀ s : Registry, (registerAll env s (urls.map some)).map (fun r => r.w.body) =
      urls.map (fun _ => jsonConverter (s.lastTrack + 1)) := by
  induction urls with
  | nil => intro s; simp [registerAll]
  | cons u rest ih =>
    intro s
    have hu := hok u (List.mem_cons_self u rest)
    have hrest : ∀ v ∈ rest, v ≠ "" ∧ (env.ParseLocation v).2 = none :=
      fun v hv => hok v (List.mem_cons_of_mem u hv)
    have hr := registerTrack_parsed env s u hu.1 hu.2
    simp only [List.map_cons, registerAll]
    rw [ih hrest, hr]
    simp only [acceptedResponse, hkeep]

/-! ### The claims -/

theorem registerAll_responses (env : Env)
    (hbump : ∀ s t, (env.insert s t).lastTrack = s.lastTrack + 1) (urls : List String)
    (hok : ∀ u ∈ urls, u ≠ "" ∧ (env.ParseLocation u).2 = none) :
    ∀ s : Registry, (registerAll env s (urls.map some)).map (fun r => (r.w, r.exit)) =
      (List.range urls.length).map
        (fun (i : Nat) => (acceptedResponse (s.lastTrack + 1 + (i : Int)), Exit.returned)) := by
  induction urls with
  | nil => intro s; simp [registerAll]
  | cons u rest ih =>
    intro s
    have hu := hok u (List.mem_cons_self u rest)
    have hrest : ∀ v ∈ rest, v ≠ "" ∧ (env.ParseLocation v).2 = none :=
      fun v hv => hok v (List.mem_cons_of_mem u hv)
    have hr := registerTrack_parsed env s u hu.1 hu.2
    simp only [List.map_cons, registerAll, List.length_cons, List.range_succ_eq_map,
      List.map_map]
    rw [ih hrest, hr]
    simp only [hbump, Nat.cast_zero, add_zero, List.cons.injEq, true_and]
    apply List.map_congr_left
    intro i _
    simp only [Function.comp, Nat.succ_eq_add_one, Nat.cast_add, Nat.cast_one]
    congr 2
    omega

theorem toString_natCast (k : Nat) : toString ((k : Nat) : Int) = toString k := rfl

/-- C1: starting from the initial registry, when `N` requests with a
non-empty url that parses are handled one after another by `registerTrack`
(with `insert` as modelled), the k-th request, for every `k` from 1 to `N`,
returns with status 200 and the body is the text `"{"id":` followed by the
decimal digits of `k` and `}"`: the id written in the k-th response is `k`. -/
theorem registerTrack_assigns_sequential_ids (env : Env) (urls : List String)
    (hok : ∀ u ∈ urls, u ≠ "" ∧ (env.ParseLocation u).2 = none) (k : Nat) (hk1 : 1 ≤ k)
    (hkN : k ≤ urls.length) :
    ∃ r : Result,
      (registerAll { env with insert := insert } Registry.initial (urls.map some))[k - 1]? =
          some r ∧
        r.exit = Exit.returned ∧ r.w.statusCode = 200 ∧
        r.w.body = "\"\x7b\"id\":" ++ toString k ++ "\x7d\"" := by
  have h := registerAll_responses { env with insert := insert } insert_lastTrack urls hok
    Registry.initial
  have hk : ((registerAll { env with insert := insert } Registry.initial
      (urls.map some)).map (fun r => (r.w, r.exit)))[k - 1]? =
      some (acceptedResponse (k : Int), Exit.returned) := by
    rw [h, List.getElem?_map, List.getElem?_range (by omega)]
    simp only [Option.map_some', Registry.initial, Option.some.injEq, Prod.mk.injEq, and_true]
    congr 1
    omega
  rw [List.getElem?_map] at hk
  cases hr : (registerAll { env with insert := insert } Registry.initial
      (urls.map some))[k - 1]? with
  | none => rw [hr] at hk; simp at hk
  | some r =>
    rw [hr] at hk
    simp only [Option.map_some', Option.some.injEq, Prod.mk.injEq] at hk
    refine ⟨r, rfl, hk.2, ?_, ?_⟩
    · rw [hk.1]; rfl
    · rw [hk.1]
      show jsonConverter (k : Int) = _
      rw [jsonConverter, toString_natCast]

/-- Two registrations: the second response carries the id 2. -/
theorem registerTrack_assigns_sequential_ids_witness :
    ((∀ u ∈ twoUrls, u ≠ "" ∧ (sampleEnv.ParseLocation u).2 = none) ∧ 1 ≤ 2 ∧
        2 ≤ twoUrls.length) ∧
      ∃ r : Result,
        (registerAll { sampleEnv with insert := insert } Registry.initial
          (twoUrls.map some))[2 - 1]? = some r ∧
          r.exit = Exit.returned ∧ r.w.statusCode = 200 ∧
          r.w.body = "\"\x7b\"id\":2\x7d\"" := by
  refine ⟨⟨by decide, by decide, by decide⟩, ?_⟩
  obtain ⟨r, hr, he, hs, hb⟩ :=
    registerTrack_assigns_sequential_ids sampleEnv twoUrls (by decide) 2 (by decide)
      (by decide)
  refine ⟨r, hr, he, hs, ?_⟩
  rw [hb]
  decide

/-- C2 (refuted on the code): whatever `insert` does with its arguments,
`registerTrack` does not make `tracks[0].URL` the url of the first
registration for every parser and url: the url is neither stored by
`registerTrack` nor passed to `insert`. -/
theorem registerTrack_cannot_store_url :
    ¬ ∃ ins : Registry → TrackInfo → Registry,
      ∀ (parse : String → IgcTrack × Option String) (u : String), u ≠ "" →
        (parse u).2 = none →
        ((registerTrack { sampleEnv with insert := ins, ParseLocation := parse }
          Registry.initial (some u)).reg.tracks[0]?).map Track.URL = some u := by
  rintro ⟨ins, h⟩
  have ha := h (fun _ => ((sampleParse "https://example.org/flight1.igc").1, none)) "a"
    (by decide) rfl
  have hb := h (fun _ => ((sampleParse "https://example.org/flight1.igc").1, none)) "b"
    (by decide) rfl
  rw [registerTrack_parsed _ _ "a" (by decide) rfl] at ha
  rw [registerTrack_parsed _ _ "b" (by decide) rfl] at hb
  have hab : some "a" = some "b" := ha.symm.trans hb
  exact absurd hab (by decide)

theorem getTrackMeta_below (env : Env) (s : Registry) (url : String) (i : Int)
    (hi : Atoi (pathFile url) = .ok i) (h : i ≤ s.lastTrack) (h1 : i < 1) :
    getTrackMeta env s url = indexPanicResult s (i - 1) :=
  getTrackMeta_index_panic env s url i hi h (sliceIndex_neg _ _ (by omega))

theorem getTrackMetaField_below (env : Env) (s : Registry) (url t f : String) (i : Int)
    (h5 : (stringsSplit url)[5]? = some f) (h4 : (stringsSplit url)[4]? = some t)
    (hi : Atoi t = .ok i) (h : i ≤ s.lastTrack) (h1 : i < 1) :
    getTrackMetaField env s url = some (indexPanicResult s (i - 1)) :=
  getTrackMetaField_index_panic env s url t f i h5 h4 hi h (sliceIndex_neg _ _ (by omega))

/-- C3 (evaluated at id 0): in the initial registry the id 0 passes the test
`in <= lastTrack`, and both read handlers end in the index panic of
`tracks[-1]` with nothing written, so no 404 is sent. -/
theorem read_handlers_panic_on_id_zero :
    ∀ env : Env,
      getTrackMeta env Registry.initial "/paragliding/api/track/0" =
          { reg := Registry.initial, w := ResponseWriter.fresh,
            trace := [Event.indexed (-1)], exit := Exit.indexPanic (-1) } ∧
        getTrackMetaField env Registry.initial "/paragliding/api/track/0/pilot" =
          some { reg := Registry.initial, w := ResponseWriter.fresh,
                 trace := [Event.indexed (-1)], exit := Exit.indexPanic (-1) } := by
  intro env
  exact ⟨getTrackMeta_below env Registry.initial _ 0 rfl (by decide) (by decide),
    getTrackMetaField_below env Registry.initial _ "0" "pilot" 0 (by decide) (by decide) rfl
      (by decide) (by decide)⟩

/-- C4 (evaluated at an unparseable url): after the 400 of `http.Error` the
handler goes on: `insert` is called on the track value the parser returned
with the error, the registry becomes what `insert` returns, and the id text
is appended to the body. -/
theorem registerTrack_goes_on_after_parse_error :
    ∀ ins : Registry → TrackInfo → Registry,
      registerTrack { sampleEnv with insert := ins } Registry.initial
          (some "https://example.org/broken.igc") =
        { reg := ins Registry.initial
            (trackInfoOf (sampleParse "https://example.org/broken.igc").1)
          w := { header := [("Content-Type", "application/json"),
                   ("X-Content-Type-Options", "nosniff")]
                 status := some 400
                 sent := [("X-Content-Type-Options", "nosniff"),
                   ("Content-Type", "text/plain; charset=utf-8")]
                 body := "Problem parsing URL\n\"\x7b\"id\":1\x7d\"" }
          trace := [Event.parsed "https://example.org/broken.igc",
            Event.inserted (trackInfoOf (sampleParse "https://example.org/broken.igc").1)]
          exit := Exit.returned } := by
  intro ins
  rw [registerTrack_parse_failed _ _ "https://example.org/broken.igc" "unreachable"
    (by decide) rfl]
  rfl

/-- C5 (evaluated at a missing and at an empty url): `registerTrack` writes
one log line and nothing to the response, so the client receives status 200
and no 400; the registry is left as it was. -/
theorem registerTrack_missing_url_sends_no_error :
    ∀ (env : Env) (s : Registry),
      registerTrack env s none = missingResult s ∧
        registerTrack env s (some "") = missingResult s ∧
        (missingResult s).w.status = none ∧ (missingResult s).w.statusCode = 200 ∧
        (missingResult s).w.body = "" ∧ (missingResult s).reg = s := by
  intro env s
  exact ⟨registerTrack_missing env s none (Or.inl rfl),
    registerTrack_missing env s (some "") (Or.inr rfl), rfl, rfl, rfl, rfl⟩

/-- C7 (evaluated at the first registration): the status is 200 and the
content type `application/json`, but the body is the id object wrapped in
double quotes, a text that opens no JSON object. -/
theorem registerTrack_body_is_quoted :
    ∀ ins : Registry → TrackInfo → Registry,
      (registerTrack { sampleEnv with insert := ins } Registry.initial
          (some "https://example.org/flight1.igc")).w.statusCode = 200 ∧
        (registerTrack { sampleEnv with insert := ins } Registry.initial
          (some "https://example.org/flight1.igc")).w.sentHeader "Content-Type" =
          some "application/json" ∧
        (registerTrack { sampleEnv with insert := ins } Registry.initial
          (some "https://example.org/flight1.igc")).w.body = "\"\x7b\"id\":1\x7d\"" ∧
        "\"\x7b\"id\":1\x7d\"" ≠ "\x7b\"id\":1\x7d" ∧
        opensJSONObject "\"\x7b\"id\":1\x7d\"" = false ∧
        opensJSONObject "\x7b\"id\":1\x7d" = true := by
  intro ins
  rw [registerTrack_parsed _ _ "https://example.org/flight1.igc" (by decide) rfl]
  exact ⟨rfl, rfl, rfl, by decide, by decide, by decide⟩

/-- C8: for an id at most `lastTrack` whose stored track exists and whose url
parses, `getTrackMeta` encodes the `TrackInfo` built from the parsed track,
and `getTrackMetaField` returns after writing, for the field names `pilot`,
`glider`, `glider_id`, `track_length`, `H_date`, the text of the `Pilot`,
`Glider`, `GliderID`, `TrackLength`, `FDate` field of that same `TrackInfo`
followed by a newline (status 200); for every other field name it answers 404
and writes no body. -/
theorem getTrackMetaField_agrees_with_getTrackMeta (env : Env) (s : Registry)
    (url urlF t f : String) (i : Int) (tr : Track)
    (hi : Atoi (pathFile url) = .ok i)
    (h5 : (stringsSplit urlF)[5]? = some f) (h4 : (stringsSplit urlF)[4]? = some t)
    (hit : Atoi t = .ok i) (h : i ≤ s.lastTrack)
    (hx : sliceIndex s.tracks (i - 1) = some tr)
    (hp : (env.ParseLocation tr.URL).2 = none) :
    1 ≤ i ∧
      (getTrackMeta env s url).w.body =
        env.encodeTrackInfo (trackInfoOf (env.ParseLocation tr.URL).1) ∧
      ∃ r : Result, getTrackMetaField env s urlF = some r ∧ r.exit = Exit.returned ∧
        (f = "pilot" → r.w.statusCode = 200 ∧
          r.w.body = (trackInfoOf (env.ParseLocation tr.URL).1).Pilot ++ "\n") ∧
        (f = "glider" → r.w.statusCode = 200 ∧
          r.w.body = (trackInfoOf (env.ParseLocation tr.URL).1).Glider ++ "\n") ∧
        (f = "glider_id" → r.w.statusCode = 200 ∧
          r.w.body = (trackInfoOf (env.ParseLocation tr.URL).1).GliderID ++ "\n") ∧
        (f = "track_length" → r.w.statusCode = 200 ∧
          r.w.body =
            toString (trackInfoOf (env.ParseLocation tr.URL).1).TrackLength ++ "\n") ∧
        (f = "H_date" → r.w.statusCode = 200 ∧
          r.w.body =
            env.timeString (trackInfoOf (env.ParseLocation tr.URL).1).FDate ++ "\n") ∧
        (f ∉ knownFields → r.w.statusCode = 404 ∧ r.w.body = "") := by
  have h0 := sliceIndex_some_nonneg _ _ _ hx
  refine ⟨by omega, ?_, _, getTrackMetaField_parsed env s urlF t f i tr h5 h4 hit h hx hp,
    rfl, ?_, ?_, ?_, ?_, ?_, ?_⟩
  · rw [getTrackMeta_parsed env s url i tr hi h hx hp]
  · rintro rfl
    simp [writeField, ResponseWriter.Fprintln, ResponseWriter.Write,
      ResponseWriter.WriteHeader, ResponseWriter.fresh, ResponseWriter.statusCode]
  · rintro rfl
    simp [writeField, ResponseWriter.Fprintln, ResponseWriter.Write,
      ResponseWriter.WriteHeader, ResponseWriter.fresh, ResponseWriter.statusCode]
  · rintro rfl
    simp [writeField, ResponseWriter.Fprintln, ResponseWriter.Write,
      ResponseWriter.WriteHeader, ResponseWriter.fresh, ResponseWriter.statusCode]
  · rintro rfl
    simp [writeField, ResponseWriter.Fprintln, ResponseWriter.Write,
      ResponseWriter.WriteHeader, ResponseWriter.fresh, ResponseWriter.statusCode]
  · rintro rfl
    simp [writeField, ResponseWriter.Fprintln, ResponseWriter.Write,
      ResponseWriter.WriteHeader, ResponseWriter.fresh, ResponseWriter.statusCode]
  · intro hf
    simp only [knownFields, List.mem_cons, List.mem_singleton, List.not_mem_nil, or_false,
      not_or] at hf
    simp [writeField, hf, ResponseWriter.WriteHeader, ResponseWriter.fresh,
      ResponseWriter.statusCode]

/-- The pilot of the one track of `liveRegistry`. -/
theorem getTrackMetaField_agrees_with_getTrackMeta_witness :
    (Atoi (pathFile "/paragliding/api/track/1") = .ok 1 ∧
        (stringsSplit "/paragliding/api/track/1/pilot")[5]? = some "pilot" ∧
        (stringsSplit "/paragliding/api/track/1/pilot")[4]? = some "1" ∧
        Atoi "1" = .ok 1 ∧ (1 : Int) ≤ liveRegistry.lastTrack ∧
        sliceIndex liveRegistry.tracks (1 - 1) =
          some { ID := 1, URL := "https://example.org/flight1.igc" } ∧
        (sampleEnv.ParseLocation "https://example.org/flight1.igc").2 = none) ∧
      ∃ r : Result,
        getTrackMetaField sampleEnv liveRegistry "/paragliding/api/track/1/pilot" = some r ∧
          r.w.statusCode = 200 ∧ r.w.body = "Ann\n" := by
  refine ⟨⟨rfl, by decide, by decide, rfl, by decide, by decide, by decide⟩, ?_⟩
  obtain ⟨_, _, r, hr, _, hpilot, _⟩ :=
    getTrackMetaField_agrees_with_getTrackMeta sampleEnv liveRegistry
      "/paragliding/api/track/1" "/paragliding/api/track/1/pilot" "1" "pilot" 1
      { ID := 1, URL := "https://example.org/flight1.igc" } rfl (by decide) (by decide) rfl
      (by decide) (by decide) (by decide)
  exact ⟨r, hr, (hpilot rfl).1, (hpilot rfl).2⟩

/-- C9 (refuted at a stored url that no longer parses): both read handlers
end in `log.Fatal`, which terminates the process, with nothing written to
the response. -/
theorem read_handlers_exit_on_stale_source :
    (getTrackMeta sampleEnv staleRegistry "/paragliding/api/track/1").exit =
        Exit.fatal (GoError.parseFailed "unreachable") ∧
      (getTrackMeta sampleEnv staleRegistry "/paragliding/api/track/1").w =
        ResponseWriter.fresh ∧
      (getTrackMetaField sampleEnv staleRegistry "/paragliding/api/track/1/pilot").map
        Result.exit = some (Exit.fatal (GoError.parseFailed "unreachable")) ∧
      (getTrackMetaField sampleEnv staleRegistry "/paragliding/api/track/1/pilot").map
        Result.w = some ResponseWriter.fresh := by
  decide

/-- C9 (amended): for an id at most `lastTrack` whose stored track exists, if
the parser fails on the stored url with error `e`, `getTrackMeta` and
`getTrackMetaField` call `log.Fatal` with that error after indexing `tracks`
and calling the parser once: the process terminates, nothing is written to
the response and the registry is unchanged. -/
theorem read_handlers_fatal_on_parse_failure (env : Env) (s : Registry)
    (url urlF t f : String) (i : Int) (tr : Track) (e : String)
    (hi : Atoi (pathFile url) = .ok i)
    (h5 : (stringsSplit urlF)[5]? = some f) (h4 : (stringsSplit urlF)[4]? = some t)
    (hit : Atoi t = .ok i) (h : i ≤ s.lastTrack)
    (hx : sliceIndex s.tracks (i - 1) = some tr)
    (hp : (env.ParseLocation tr.URL).2 = some e) :
    getTrackMeta env s url =
        { reg := s, w := ResponseWriter.fresh,
          trace := [Event.indexed (i - 1), Event.parsed tr.URL],
          exit := Exit.fatal (GoError.parseFailed e) } ∧
      getTrackMetaField env s urlF =
        some { reg := s, w := ResponseWriter.fresh,
               trace := [Event.indexed (i - 1), Event.parsed tr.URL],
               exit := Exit.fatal (GoError.parseFailed e) } :=
  ⟨getTrackMeta_parse_failed env s url i tr e hi h hx hp,
    getTrackMetaField_parse_failed env s urlF t f i tr e h5 h4 hit h hx hp⟩

/-- The one track of `staleRegistry`, whose url the sample parser rejects. -/
theorem read_handlers_fatal_on_parse_failure_witness :
    (Atoi (pathFile "/paragliding/api/track/1") = .ok 1 ∧
        (stringsSplit "/paragliding/api/track/1/pilot")[5]? = some "pilot" ∧
        (stringsSplit "/paragliding/api/track/1/pilot")[4]? = some "1" ∧
        Atoi "1" = .ok 1 ∧ (1 : Int) ≤ staleRegistry.lastTrack ∧
        sliceIndex staleRegistry.tracks (1 - 1) =
          some { ID := 1, URL := "https://example.org/gone.igc" } ∧
        (sampleEnv.ParseLocation "https://example.org/gone.igc").2 = some "unreachable") ∧
      (getTrackMeta sampleEnv staleRegistry "/paragliding/api/track/1").exit =
        Exit.fatal (GoError.parseFailed "unreachable") :=
  ⟨⟨rfl, by decide, by decide, rfl, by decide, by decide, by decide⟩,
    congrArg Result.exit
      (read_handlers_fatal_on_parse_failure sampleEnv staleRegistry
        "/paragliding/api/track/1" "/paragliding/api/track/1/pilot" "1" "pilot" 1
        { ID := 1, URL := "https://example.org/gone.igc" } "unreachable" rfl (by decide)
        (by decide) rfl (by decide) (by decide) (by decide)).1⟩

/-- C10: in UTC, for an elapsed time of `s` whole seconds with
`0 ≤ s < 31 * 86400`, `uptime` returns `P0Y0M<d>DT<h>H<m>M<sec>S` with
`d = s / 86400`, `h = (s / 3600) mod 24`, `m = (s / 60) mod 60`,
`sec = s mod 60`, and these add up to `s`. -/
theorem uptime_iso8601_duration (now timeStart s : Int) (hs : now - timeStart = s)
    (h0 : 0 ≤ s) (h1 : s < 31 * 86400) :
    uptime 0 now timeStart =
        "P0Y0M" ++ toString (s / 86400) ++ "DT" ++ toString (s / 3600 % 24) ++ "H" ++
          toString (s / 60 % 60) ++ "M" ++ toString (s % 60) ++ "S" ∧
      s / 86400 * 86400 + s / 3600 % 24 * 3600 + s / 60 % 60 * 60 + s % 60 = s := by
  refine ⟨?_, by omega⟩
  have hz0 : 0 ≤ s / 86400 := by omega
  have hz1 : s / 86400 < 31 := by omega
  have hd : Date 0 s = (1970, 1, s / 86400 + 1) := by
    simp only [Date, add_zero]
    exact civilFromDays_january_1970 _ hz0 hz1
  have hc : Clock 0 s = (s / 3600 % 24, s / 60 % 60, s % 60) := by
    simp only [Clock, add_zero]
    refine Prod.ext ?_ (Prod.ext ?_ rfl)
    · show s % 86400 / 3600 = s / 3600 % 24
      omega
    · show s % 3600 / 60 = s / 60 % 60
      omega
  have hp : "P" ++ toString (absolute ((1970 : Int) - 1970)) ++ "Y" ++
      toString ((1 : Int) - 1) ++ "M" = "P0Y0M" := by decide
  simp only [uptime, hs, hd, hc, hp, add_sub_cancel_right]

/-- An elapsed time of 1 day, 2 hours, 3 minutes and 4 seconds. -/
theorem uptime_iso8601_duration_witness :
    ((93784 : Int) - 0 = 93784 ∧ (0 : Int) ≤ 93784 ∧ (93784 : Int) < 31 * 86400) ∧
      uptime 0 93784 0 = "P0Y0M1DT2H3M4S" :=
  ⟨by decide, by
    have h := (uptime_iso8601_duration 93784 0 93784 (by decide) (by decide) (by decide)).1
    rw [h]
    decide⟩



end Paragliding
